import Mathlib

/-!
Shallow embedding of the CBCJVM/python-pathfinding core (src/node.py,
src/geometry.py, src/mapping.py) and proofs about it.

Coordinates are modelled as rationals: every predicate of the source is a
comparison of sums and products of the caller-supplied coordinates, and on
the concrete dyadic inputs used below these are computed exactly by CPython
floats as well.  The only irrational quantities of the source (Euclidean
lengths used as path costs, and the trigonometry of polygon offsetting) do
not enter the properties proved here; where a definition would need them it
is parametrised and the theorem quantifies over the parameter.

Loops of the source that are not structurally recursive (the ear-clipping
rotation loop of `Polygon.__init__`) are modelled with an explicit fuel
argument: `none` means the loop has not terminated within the given fuel,
and a result that is `none` for every fuel value is a non-terminating run.
-/

namespace PF

/-- `node.Node`: a 2-D point.  Python equality/hash are by exact coordinate
pair, which the structural equality of this structure mirrors. -/
structure Node where
  x : ℚ
  y : ℚ
deriving DecidableEq, Repr

/-- `Node.dist` squared: the Python source computes
`math.hypot(self.x - point.x, self.y - point.y)`; the square is the exact
rational part of that quantity. -/
def Node.dist2 (a b : Node) : ℚ :=
  (a.x - b.x) * (a.x - b.x) + (a.y - b.y) * (a.y - b.y)

/-- `geometry.Line`: a line segment from `node_a` to `node_b`. -/
structure Line where
  node_a : Node
  node_b : Node
deriving DecidableEq, Repr

def Line.midpoint (l : Line) : Node :=
  ⟨(l.node_a.x + l.node_b.x) * (1/2), (l.node_a.y + l.node_b.y) * (1/2)⟩

def Line.delta_x (l : Line) : ℚ := l.node_b.x - l.node_a.x

def Line.delta_y (l : Line) : ℚ := l.node_b.y - l.node_a.y

/-- `Line.__ccw`: the orientation predicate used by `does_intersect`. -/
def ccw (a b c : Node) : Bool :=
  decide ((c.y - a.y) * (b.x - a.x) > (b.y - a.y) * (c.x - a.x))

/-- `Line.does_intersect(self, other, vertexes_count)`. -/
def Line.does_intersect (self other : Line) (vertexes_count : Bool) : Bool :=
  -- parallel check: cross-multiplied deltas
  if self.delta_x * other.delta_y == self.delta_y * other.delta_x then false
  else
    let a := self.node_a
    let b := self.node_b
    let c := other.node_a
    let d := other.node_b
    (ccw a c d != ccw b c d) && (ccw a b c != ccw a b d) &&
      (vertexes_count ||
        (decide (a ≠ c) && decide (a ≠ d) && decide (b ≠ c) && decide (b ≠ d)))

/-- `Line.__eq__`: segments are undirected for equality purposes. -/
def line_eq (l1 l2 : Line) : Bool :=
  decide ((l1.node_a = l2.node_a ∧ l1.node_b = l2.node_b) ∨
          (l1.node_a = l2.node_b ∧ l1.node_b = l2.node_a))

/-- `Node.__hash__`: `hash(self.x) ^ hash(self.y)`, parametrised over the
hash of a coordinate. -/
def node_hash (h : ℚ → ℕ) (n : Node) : ℕ := h n.x ^^^ h n.y

/-- `Line.__hash__`: `hash(self.node_a) ^ hash(self.node_b)`. -/
def line_hash (h : ℚ → ℕ) (l : Line) : ℕ :=
  node_hash h l.node_a ^^^ node_hash h l.node_b

/-- The tolerance `eps = 1e-7` of `BasePolygon.contains_node_in_area`. -/
def eps : ℚ := 1 / 10000000

/-- `BasePolygon.__init__`, closing-point handler: if the caller repeats the
first node as a closing node, it is dropped (`if nodes[-1] == nodes[0]:
del nodes[-1]`). -/
def dropClosing (ns : List Node) : List Node :=
  match ns.getLast?, ns.head? with
  | some l, some h => if l = h then ns.dropLast else ns
  | _, _ => ns

/-- `BasePolygon.__init__`, boundary segments: `Line(nodes[i],
nodes[(i + 1) % len(nodes)])` for each index `i`. -/
def polyLines (ns : List Node) : List Line :=
  (List.finRange ns.length).map fun i =>
    Line.mk (ns.get i) (ns.get ⟨(i.val + 1) % ns.length, Nat.mod_lt _ (Nat.zero_lt_of_lt i.isLt)⟩)

/-- The edge loop of `BasePolygon.contains_node_in_area`: the pairs are
`(poly[i-1], poly[i])` for `i = 1 .. len(poly)-1` where `poly` is the node
ring with the first node appended again at the end.  The accumulator is the
`result` parity flag; the early `return True` branches are the `true`
results. -/
def containsLoop (p : Node) : List (Node × Node) → Bool → Bool
  | [], result => result
  | (p2, p1) :: rest, result =>
    if p1.x < p.x ∧ p2.x < p.x then
      -- segment strictly to the left of the test point
      containsLoop p rest result
    else if p = p2 then
      -- the point is one of the vertices
      true
    else if |p1.y - p.y| < eps ∧ |p2.y - p.y| < eps then
      -- the segment is horizontal
      if min p1.x p2.x ≤ p.x ∧ p.x ≤ max p1.x p2.x then true
      else containsLoop p rest result
    else if (p1.y > p.y ∧ p2.y ≤ p.y) ∨ (p2.y > p.y ∧ p1.y ≤ p.y) then
      let det := (p1.x - p.x) * (p2.y - p.y) - (p1.y - p.y) * (p2.x - p.x)
      if |det| < eps then true
      else
        let det := if p2.y < p1.y then -det else det
        if det > 0 then containsLoop p rest (!result) else containsLoop p rest result
    else containsLoop p rest result

/-- `BasePolygon.contains_node_in_area(self, node)`, as a function of the
polygon's node ring. -/
def contains_node_in_area (ring : List Node) (p : Node) : Bool :=
  match ring with
  | [] => false
  | n0 :: _ =>
    let poly := ring ++ [n0]
    containsLoop p (poly.zip (poly.drop 1)) false

/-- `geometry.Triangle`: three nodes, their boundary lines, the unsigned
area and the winding flag derived from the sign of the shoelace area. -/
structure Triangle where
  nodes : List Node
  lines : List Line
  area : ℚ
  is_ccw : Bool
deriving DecidableEq, Repr

/-- `Triangle.__init__`: runs the `BasePolygon` closing-point handler, then
asserts exactly three nodes remain and computes the signed shoelace area
(`none` models the `AssertionError` raised when the assert fails). -/
def Triangle.make (a b c : Node) : Option Triangle :=
  match dropClosing [a, b, c] with
  | [p, q, r] =>
    let signed := (1/2 : ℚ) *
      (-q.x * p.y + r.x * p.y + p.x * q.y - r.x * q.y - p.x * r.y + q.x * r.y)
    some { nodes := [p, q, r]
           lines := polyLines [p, q, r]
           area := if signed < 0 then -signed else signed
           is_ccw := decide (¬ signed < 0) }
  | _ => none

def Triangle.containsNode (t : Triangle) (v : Node) : Bool :=
  contains_node_in_area t.nodes v

/-- Construction-time failures of `Polygon.__init__`
(`AssertionError` from `BasePolygon`/`Triangle` asserts, and the
`Exception("Polygon is self-intersecting")`). -/
inductive PolyErr where
  | assertionFailed
  | selfIntersecting
deriving DecidableEq, Repr

/-- The winding-flag handling of `Polygon.__init__`:

    if "ccw" in kwargs:
        ccw = kwargs["ccw"]
    ccw = True

The second assignment is unconditional in the source, so the caller's
argument is read and then discarded. -/
def ccwFlag (ccwArg : Option Bool) : Bool :=
  let ccw := match ccwArg with
    | some c => c
    | none => true
  let ccw := true
  ccw

/-- The vertex list actually handed to the ear-clipping loop: the copy of
the node ring, reversed when the winding flag says it is not already
counter-clockwise. -/
def triangulationInput (ns : List Node) (ccwArg : Option Bool) : List Node :=
  if ccwFlag ccwArg then ns else ns.reverse

/-- The ear-clipping loop of `Polygon.__init__` (`while len(copy) >= 3`),
with one unit of fuel per loop iteration.  `selfNodes` is the original node
ring (the receiver of the `self.contains_node_in_area` call for the
candidate diagonal's midpoint).  `none` means the loop has not terminated
within `fuel` iterations. -/
def earLoop (selfNodes : List Node) :
    ℕ → List Node → List Triangle → Option (Except PolyErr (List Triangle))
  | 0, _, _ => none
  | fuel + 1, copy, acc =>
    match copy with
    | c0 :: c1 :: c2 :: rest =>
      match Triangle.make c0 c1 c2 with
      | none => some (.error .assertionFailed)
      | some t =>
        let is_ear := t.is_ccw
          && contains_node_in_area selfNodes (Line.mk c0 c2).midpoint
          && rest.all fun v => ! t.containsNode v
        if is_ear then earLoop selfNodes fuel (c0 :: c2 :: rest) (acc ++ [t])
        else earLoop selfNodes fuel (c1 :: c2 :: rest ++ [c0]) acc
    | _ => some (.ok acc)

/-- The final validation pass of `Polygon.__init__`: every ordered pair of
boundary lines is tested with `does_intersect(..., False)`. -/
def crossingCheck (lines : List Line) : Bool :=
  lines.any fun i => lines.any fun k => i.does_intersect k false

/-- `geometry.Polygon`. -/
structure Polygon where
  nodes : List Node
  lines : List Line
  is_ccw : Bool
  triangles : List Triangle
  triangle_lines : List Line
deriving DecidableEq, Repr

/-- `Polygon.__init__(*nodes, **kwargs)` with explicit fuel for the
ear-clipping loop.  `triangle_lines` is the set of triangle edges with the
polygon's own boundary edges removed (`difference_update` under the
undirected segment equality `Line.__eq__`); it is represented as a list
whose membership-up-to-`line_eq` matches the Python set's membership.
The `perimeter` attribute (a sum of Euclidean lengths, irrational and
unused by any property below) is not carried. -/
def Polygon.make (fuel : ℕ) (nodesIn : List Node) (ccwArg : Option Bool) :
    Option (Except PolyErr Polygon) :=
  let ns := dropClosing nodesIn
  if ns.length < 3 then some (.error .assertionFailed)
  else
    let lines := polyLines ns
    let copy := triangulationInput ns ccwArg
    match earLoop ns fuel copy [] with
    | none => none
    | some (.error e) => some (.error e)
    | some (.ok tris) =>
      let triangle_lines :=
        (tris.flatMap Triangle.lines).filter fun e =>
          ! lines.any fun b => line_eq e b
      if crossingCheck lines then some (.error .selfIntersecting)
      else some (.ok
        { nodes := ns
          lines := lines
          is_ccw := ccwFlag ccwArg
          triangles := tris
          triangle_lines := triangle_lines })

/-- Extract the polygon from a successful construction (the failure
fallback is never used by the concrete constructions below, each of which
is shown to succeed by `rfl`). -/
def getOkPoly (r : Option (Except PolyErr Polygon)) : Polygon :=
  match r with
  | some (.ok p) => p
  | _ => ⟨[], [], true, [], []⟩

/-- The node ring of `testcase.s_left_side`. -/
def s_left_side_nodes : List Node :=
  [⟨0, 0⟩, ⟨3, 0⟩, ⟨3, 1⟩, ⟨1, 1⟩, ⟨1, 3⟩, ⟨0, 3⟩]

/-- The node ring of `testcase.s_right_side`. -/
def s_right_side_nodes : List Node :=
  [⟨4, 0⟩, ⟨5, 0⟩, ⟨5, 3⟩, ⟨2, 3⟩, ⟨2, 2⟩, ⟨4, 2⟩]

/-- `testcase.s_left_side = Polygon(..., ccw=False)`. -/
def s_left_side : Polygon := getOkPoly (Polygon.make 32 s_left_side_nodes (some false))

/-- `testcase.s_right_side = Polygon(..., ccw=False)`. -/
def s_right_side : Polygon := getOkPoly (Polygon.make 32 s_right_side_nodes (some false))

/-- The unit-square obstacle of `testcase.r_board`. -/
def unit_square_nodes : List Node := [⟨0, 0⟩, ⟨1, 0⟩, ⟨1, 1⟩, ⟨0, 1⟩]

def unit_square : Polygon := getOkPoly (Polygon.make 16 unit_square_nodes (some false))

/-- A unit square listed in clockwise order (negative shoelace area). -/
def cwSquareNodes : List Node := [⟨0, 0⟩, ⟨0, 1⟩, ⟨1, 1⟩, ⟨1, 0⟩]

/-- A self-intersecting quadrilateral: edges `(0,0)-(2,2)` and
`(2,0)-(0,2)` cross at `(1,1)`. -/
def bowtieNodes : List Node := [⟨0, 0⟩, ⟨2, 2⟩, ⟨2, 0⟩, ⟨0, 2⟩]

/-- The ear-clipping loop of `Polygon.__init__` runs forever on this
input: no fuel bound suffices. -/
def neverConstructs (ns : List Node) (cc : Option Bool) : Prop :=
  ∀ fuel, Polygon.make fuel ns cc = none

/-- `mapping.Board`.  Python stores the `visible_siblings` sets on the
node objects themselves; they are modelled as a board-owned side table
keyed by node value (`cache`), per the spec's design note on mutable
cross-references.  `precalculated` is the private `__precalculated` flag.
Python's `polygons` set hashes polygons by object identity (no `__eq__` on
`Polygon`), so each `add` of a freshly constructed polygon extends the
set; a list models that.  The derived `lines` set of `get_lines` is used
by no property below and is not carried. -/
structure Board where
  polygons : List Polygon
  precalculated : Bool
  cache : List (Node × List Node)
deriving DecidableEq, Repr

/-- `Board.__init__`. -/
def Board.new : Board := ⟨[], false, []⟩

/-- `Board.add(poly)`. -/
def Board.add (b : Board) (poly : Polygon) : Board :=
  { b with polygons := poly :: b.polygons, precalculated := false }

/-- `Board.remove(poly)`: `set.remove` raises `KeyError` when the polygon
is absent (`none`); otherwise the polygon is removed and the cache flag is
cleared. -/
def Board.remove (b : Board) (poly : Polygon) : Option Board :=
  if poly ∈ b.polygons then
    some { b with polygons := b.polygons.erase poly, precalculated := false }
  else none

/-- `Board.get_nodes`: the set of every polygon's nodes (node equality is
by coordinate value in Python, hence the structural dedup). -/
def Board.nodes (b : Board) : List Node :=
  (b.polygons.flatMap Polygon.nodes).dedup

/-- `Board.__visibility_test(node_a, node_b)`. -/
def Board.visibility_test (b : Board) (node_a node_b : Node) : Bool :=
  let direct_line := Line.mk node_a node_b
  b.polygons.all fun p =>
    (p.lines.all fun l => ! l.does_intersect direct_line false) &&
    (p.triangle_lines.all fun l => ! l.does_intersect direct_line false) &&
    ! (p.triangle_lines.any fun l => line_eq direct_line l)

/-- One node's entry during the `precalculate_visibility` pair pass
(`visible_siblings` and the temporary `nonvisible_siblings`). -/
structure SibEntry where
  node : Node
  visible : List Node
  nonvisible : List Node
deriving DecidableEq, Repr

/-- Membership by node value, as Python's `in` on a set of nodes. -/
def memNode (L : List Node) (x : Node) : Bool := L.any fun y => decide (y = x)

def addVisible (st : List SibEntry) (a b : Node) : List SibEntry :=
  st.map fun e => if e.node = a then { e with visible := b :: e.visible } else e

def addNonvisible (st : List SibEntry) (a b : Node) : List SibEntry :=
  st.map fun e => if e.node = a then { e with nonvisible := b :: e.nonvisible } else e

def getEntry (st : List SibEntry) (a : Node) : SibEntry :=
  (st.find? fun e => decide (e.node = a)).getD ⟨a, [], []⟩

/-- The body of the double loop of `precalculate_visibility`: each
unordered pair is tested once and the result is recorded symmetrically. -/
def pairStep (test : Node → Node → Bool) (st : List SibEntry) (i k : Node) :
    List SibEntry :=
  if decide (k ≠ i) && ! memNode (getEntry st i).visible k
      && ! memNode (getEntry st i).nonvisible k then
    if test i k then addVisible (addVisible st i k) k i
    else addNonvisible (addNonvisible st i k) k i
  else st

/-- `Board.precalculate_visibility()`, returning the Python result paired
with the updated board state: `false` and no change when the cache is
already valid, otherwise a full rebuild (the `nonvisible_siblings` sets
are dropped at the end, as by the cleanup loop). -/
def Board.precalculate_visibility (b : Board) : Bool × Board :=
  if b.precalculated then (false, b)
  else
    let ns := b.nodes
    let st0 := ns.map fun i => SibEntry.mk i [] []
    let st := ns.foldl
      (fun st i => ns.foldl (fun st k => pairStep b.visibility_test st i k) st) st0
    (true, { b with precalculated := true,
                    cache := st.map fun e => (e.node, e.visible) })

/-- `Board.is_visible(node_a, node_b)`.  Python reads
`node_b.visible_siblings` off the node object; a query node that is not a
board node carries a freshly initialised empty set, which the lookup
default mirrors. -/
def Board.is_visible (b : Board) (node_a node_b : Node) : Bool :=
  if b.precalculated then
    if memNode (((b.cache.find? fun e => decide (e.1 = node_b)).map Prod.snd).getD [])
        node_a then true
    else if memNode b.nodes node_a && memNode b.nodes node_b then false
    else b.visibility_test node_a node_b
  else b.visibility_test node_a node_b

/-- `Board.get_visible_set_for(pov, *args)`. -/
def Board.get_visible_set_for (b : Board) (pov : Node) (args : List Node) : List Node :=
  args.filter fun i => b.is_visible pov i && decide (pov ≠ i)

/-- `Board.get_visible_set(pov, *args)`: the nodes of `args` visible from
`pov`, together with the board nodes visible from `pov` (list append
models the set union; membership is what the properties below use). -/
def Board.get_visible_set (b : Board) (pov : Node) (args : List Node) : List Node :=
  b.get_visible_set_for pov args ++
    (b.nodes.filter fun i => b.is_visible pov i && decide (pov ≠ i))

/-- One step of the loop of `Board.get_expanded`:
`b.add(p.get_expanded(outset))`, with an already-raised exception
propagating past the remaining polygons. -/
def expandFold (expandPoly : Polygon → ℚ → Except PolyErr Polygon) (outset : ℚ)
    (acc : Except PolyErr Board) (p : Polygon) : Except PolyErr Board :=
  match acc with
  | .error e => .error e
  | .ok nb =>
    match expandPoly p outset with
    | .error e => .error e
    | .ok np => .ok (nb.add np)

/-- `Board.get_expanded(outset)`: a fresh board is built by `add`-ing each
polygon's expansion; the receiver is only read, and its (unchanged) state
is returned alongside the result.  `Polygon.get_expanded` itself computes
offset vertices with `math.atan`/`cos`/`sin` on floats, so it enters as
the parameter `expandPoly`; the frame property proved below holds for
every such function. -/
def Board.get_expanded (expandPoly : Polygon → ℚ → Except PolyErr Polygon)
    (b : Board) (outset : ℚ) : Except PolyErr Board × Board :=
  (b.polygons.foldl (expandFold expandPoly outset) (.ok Board.new), b)

/-- A concrete board holding the unit square, for the witnesses below. -/
def square_board : Board := Board.new.add unit_square

def board_after_remove : Board := (square_board.remove unit_square).getD Board.new

/-- `testcase.s_board`: the S-curve board made of the two polygons. -/
def s_board : Board := (Board.new.add s_left_side).add s_right_side

/-- `testcase.s_start = Node(1.5, 3)`. -/
def s_start : Node := ⟨3/2, 3⟩

/-- `testcase.s_end = Node(3.5, 0)`. -/
def s_end : Node := ⟨7/2, 0⟩

theorem line_eq_refl (l : Line) : line_eq l l = true := by
  simp [line_eq]

theorem line_eq_symm {l1 l2 : Line} (h : line_eq l1 l2 = true) :
    line_eq l2 l1 = true := by
  simp only [line_eq, decide_eq_true_eq] at *
  tauto

theorem line_eq_trans {l1 l2 l3 : Line} (h1 : line_eq l1 l2 = true)
    (h2 : line_eq l2 l3 = true) : line_eq l1 l3 = true := by
  simp only [line_eq, decide_eq_true_eq] at *
  rcases h1 with ⟨ha, hb⟩ | ⟨ha, hb⟩ <;> rcases h2 with ⟨hc, hd⟩ | ⟨hc, hd⟩ <;>
    simp_all

/-- C4.  `does_intersect` returns false whenever the cross-multiplied
deltas are equal (parallel segments, including a segment compared with
itself); otherwise it returns true iff the two `ccw` orientation tests
differ, and additionally, when `count_shared_vertices` is false, iff no
endpoint of one segment equals an endpoint of the other. -/
theorem c4_does_intersect_characterization :
    ∀ (s other : Line) (vc : Bool),
      (s.delta_x * other.delta_y = s.delta_y * other.delta_x →
        s.does_intersect other vc = false) ∧
      s.does_intersect s vc = false ∧
      (s.delta_x * other.delta_y ≠ s.delta_y * other.delta_x →
        (s.does_intersect other vc = true ↔
          (ccw s.node_a other.node_a other.node_b ≠ ccw s.node_b other.node_a other.node_b ∧
           ccw s.node_a s.node_b other.node_a ≠ ccw s.node_a s.node_b other.node_b ∧
           (vc = true ∨
             (s.node_a ≠ other.node_a ∧ s.node_a ≠ other.node_b ∧
              s.node_b ≠ other.node_a ∧ s.node_b ≠ other.node_b))))) := by
  intro s other vc
  refine ⟨fun h => ?_, ?_, fun h => ?_⟩
  · simp [Line.does_intersect, h]
  · simp [Line.does_intersect, mul_comm]
  · simp only [Line.does_intersect, beq_iff_eq, if_neg h, Bool.and_eq_true,
      Bool.or_eq_true, bne_iff_ne, decide_eq_true_eq]
    tauto

/-- Witness for C4 at concrete inputs: two parallel horizontal segments do
not intersect even with shared-vertex counting on; a segment never
intersects itself; and for the two crossing diagonals of a square the
characterization yields the orientation-test inequality. -/
theorem c4_witness :
    (Line.mk ⟨0, 0⟩ ⟨1, 0⟩).does_intersect (Line.mk ⟨0, 1⟩ ⟨1, 1⟩) true = false ∧
    (Line.mk ⟨0, 0⟩ ⟨2, 2⟩).does_intersect (Line.mk ⟨0, 0⟩ ⟨2, 2⟩) false = false ∧
    ccw ⟨0, 0⟩ ⟨2, 0⟩ ⟨0, 2⟩ ≠ ccw ⟨2, 2⟩ ⟨2, 0⟩ ⟨0, 2⟩ := by
  refine ⟨(c4_does_intersect_characterization _ _ true).1 ?_,
    (c4_does_intersect_characterization
      (Line.mk ⟨0, 0⟩ ⟨2, 2⟩) (Line.mk ⟨0, 0⟩ ⟨2, 2⟩) false).2.1,
    (((c4_does_intersect_characterization
        (Line.mk ⟨0, 0⟩ ⟨2, 2⟩) (Line.mk ⟨2, 0⟩ ⟨0, 2⟩) false).2.2 ?_).mp
      (by with_unfolding_all rfl)).1⟩
  · norm_num [Line.delta_x, Line.delta_y]
  · norm_num [Line.delta_x, Line.delta_y]

/-- C8.  `Segment(a,b) == Segment(b,a)` and the two have the same hash, for
every coordinate hash function. -/
theorem c8_segment_eq_hash_symmetric :
    ∀ (h : ℚ → ℕ) (a b : Node),
      line_eq (Line.mk a b) (Line.mk b a) = true ∧
      line_hash h (Line.mk a b) = line_hash h (Line.mk b a) := by
  intro h a b
  refine ⟨by simp [line_eq], ?_⟩
  simp [line_hash, Nat.xor_comm]

/-- C2 (code bug).  The caller-supplied winding flag is overwritten with
`True` before it is used: a polygon declared `ccw=False` still stores
`is_ccw = True` and its vertex list is handed to the ear-clipping loop
unreversed.  Demonstrated on the repository's own `s_left_side`. -/
theorem c2_ccw_flag_overwritten :
    ccwFlag (some false) = true ∧
    triangulationInput s_left_side_nodes (some false) = s_left_side_nodes ∧
    triangulationInput s_left_side_nodes (some false) ≠ s_left_side_nodes.reverse ∧
    Polygon.make 32 s_left_side_nodes (some false) = some (.ok s_left_side) ∧
    s_left_side.is_ccw = true :=
  ⟨rfl, rfl, by decide, by with_unfolding_all rfl, by with_unfolding_all rfl⟩

/-- On the clockwise square every one of the four cyclic states of the
ear-clipping loop fails the ear test (its leading triple is clockwise), so
each iteration only rotates the list and the loop never returns. -/
theorem cw_square_earLoop_none :
    ∀ (fuel : ℕ) (acc : List Triangle),
      earLoop cwSquareNodes fuel [⟨0, 0⟩, ⟨0, 1⟩, ⟨1, 1⟩, ⟨1, 0⟩] acc = none ∧
      earLoop cwSquareNodes fuel [⟨0, 1⟩, ⟨1, 1⟩, ⟨1, 0⟩, ⟨0, 0⟩] acc = none ∧
      earLoop cwSquareNodes fuel [⟨1, 1⟩, ⟨1, 0⟩, ⟨0, 0⟩, ⟨0, 1⟩] acc = none ∧
      earLoop cwSquareNodes fuel [⟨1, 0⟩, ⟨0, 0⟩, ⟨0, 1⟩, ⟨1, 1⟩] acc = none := by
  intro fuel
  induction fuel with
  | zero => intro acc; exact ⟨rfl, rfl, rfl, rfl⟩
  | succ n ih =>
    intro acc
    refine ⟨?_, ?_, ?_, ?_⟩
    · rw [show earLoop cwSquareNodes (n + 1) [⟨0, 0⟩, ⟨0, 1⟩, ⟨1, 1⟩, ⟨1, 0⟩] acc
          = earLoop cwSquareNodes n [⟨0, 1⟩, ⟨1, 1⟩, ⟨1, 0⟩, ⟨0, 0⟩] acc from by
        with_unfolding_all rfl]
      exact (ih acc).2.1
    · rw [show earLoop cwSquareNodes (n + 1) [⟨0, 1⟩, ⟨1, 1⟩, ⟨1, 0⟩, ⟨0, 0⟩] acc
          = earLoop cwSquareNodes n [⟨1, 1⟩, ⟨1, 0⟩, ⟨0, 0⟩, ⟨0, 1⟩] acc from by
        with_unfolding_all rfl]
      exact (ih acc).2.2.1
    · rw [show earLoop cwSquareNodes (n + 1) [⟨1, 1⟩, ⟨1, 0⟩, ⟨0, 0⟩, ⟨0, 1⟩] acc
          = earLoop cwSquareNodes n [⟨1, 0⟩, ⟨0, 0⟩, ⟨0, 1⟩, ⟨1, 1⟩] acc from by
        with_unfolding_all rfl]
      exact (ih acc).2.2.2
    · rw [show earLoop cwSquareNodes (n + 1) [⟨1, 0⟩, ⟨0, 0⟩, ⟨0, 1⟩, ⟨1, 1⟩] acc
          = earLoop cwSquareNodes n [⟨0, 0⟩, ⟨0, 1⟩, ⟨1, 1⟩, ⟨1, 0⟩] acc from by
        with_unfolding_all rfl]
      exact (ih acc).1

/-- On the bowtie every one of the four cyclic states fails the ear test
(two leading triples are clockwise; the other two have the candidate
diagonal's midpoint outside the ring), so the loop never returns. -/
theorem bowtie_earLoop_none :
    ∀ (fuel : ℕ) (acc : List Triangle),
      earLoop bowtieNodes fuel [⟨0, 0⟩, ⟨2, 2⟩, ⟨2, 0⟩, ⟨0, 2⟩] acc = none ∧
      earLoop bowtieNodes fuel [⟨2, 2⟩, ⟨2, 0⟩, ⟨0, 2⟩, ⟨0, 0⟩] acc = none ∧
      earLoop bowtieNodes fuel [⟨2, 0⟩, ⟨0, 2⟩, ⟨0, 0⟩, ⟨2, 2⟩] acc = none ∧
      earLoop bowtieNodes fuel [⟨0, 2⟩, ⟨0, 0⟩, ⟨2, 2⟩, ⟨2, 0⟩] acc = none := by
  intro fuel
  induction fuel with
  | zero => intro acc; exact ⟨rfl, rfl, rfl, rfl⟩
  | succ n ih =>
    intro acc
    refine ⟨?_, ?_, ?_, ?_⟩
    · rw [show earLoop bowtieNodes (n + 1) [⟨0, 0⟩, ⟨2, 2⟩, ⟨2, 0⟩, ⟨0, 2⟩] acc
          = earLoop bowtieNodes n [⟨2, 2⟩, ⟨2, 0⟩, ⟨0, 2⟩, ⟨0, 0⟩] acc from by
        with_unfolding_all rfl]
      exact (ih acc).2.1
    · rw [show earLoop bowtieNodes (n + 1) [⟨2, 2⟩, ⟨2, 0⟩, ⟨0, 2⟩, ⟨0, 0⟩] acc
          = earLoop bowtieNodes n [⟨2, 0⟩, ⟨0, 2⟩, ⟨0, 0⟩, ⟨2, 2⟩] acc from by
        with_unfolding_all rfl]
      exact (ih acc).2.2.1
    · rw [show earLoop bowtieNodes (n + 1) [⟨2, 0⟩, ⟨0, 2⟩, ⟨0, 0⟩, ⟨2, 2⟩] acc
          = earLoop bowtieNodes n [⟨0, 2⟩, ⟨0, 0⟩, ⟨2, 2⟩, ⟨2, 0⟩] acc from by
        with_unfolding_all rfl]
      exact (ih acc).2.2.2
    · rw [show earLoop bowtieNodes (n + 1) [⟨0, 2⟩, ⟨0, 0⟩, ⟨2, 2⟩, ⟨2, 0⟩] acc
          = earLoop bowtieNodes n [⟨0, 0⟩, ⟨2, 2⟩, ⟨2, 0⟩, ⟨0, 2⟩] acc from by
        with_unfolding_all rfl]
      exact (ih acc).1

/-- If the ear-clipping loop exhausts its fuel, the whole construction
does. -/
theorem make_none (fuel : ℕ) (ns : List Node) (cc : Option Bool)
    (h3 : ¬ (dropClosing ns).length < 3)
    (h : earLoop (dropClosing ns) fuel (triangulationInput (dropClosing ns) cc) [] = none) :
    Polygon.make fuel ns cc = none := by
  simp only [Polygon.make, h, if_neg h3]

/-- C3 (code bug).  On the clockwise square the ear-clipping loop never
terminates, whatever fuel bound and whatever winding argument (which is
ignored, see C2): construction neither produces a triangulation nor raises
any error. -/
theorem c3_cw_square_never_terminates :
    ∀ (fuel : ℕ) (ccwArg : Option Bool),
      Polygon.make fuel cwSquareNodes ccwArg = none := by
  intro fuel ccwArg
  apply make_none
  · decide
  · rw [show dropClosing cwSquareNodes = cwSquareNodes from rfl,
      show triangulationInput cwSquareNodes ccwArg = cwSquareNodes from rfl]
    exact (cw_square_earLoop_none fuel []).1

/-- The only error the ear-clipping loop itself can signal is the
`AssertionError` of a degenerate candidate triangle; it never raises the
self-intersecting error. -/
theorem earLoop_error_eq (S : List Node) :
    ∀ (fuel : ℕ) (copy : List Node) (acc : List Triangle) (e : PolyErr),
      earLoop S fuel copy acc = some (.error e) → e = .assertionFailed := by
  intro fuel
  induction fuel with
  | zero => intro copy acc e h; simp [earLoop] at h
  | succ n ih =>
    intro copy acc e h
    rcases copy with _ | ⟨c0, _ | ⟨c1, _ | ⟨c2, rest⟩⟩⟩
    · simp [earLoop] at h
    · simp [earLoop] at h
    · simp [earLoop] at h
    · simp only [earLoop] at h
      split at h
      · simp only [Option.some.injEq, Except.error.injEq] at h
        exact h.symm
      · split at h
        · exact ih _ _ _ h
        · exact ih _ _ _ h

/-- C5 counterexample.  The bowtie's boundary segments cross under the
predicate with `count_shared_vertices = false`, yet construction never
raises the self-intersecting error: the ear-clipping loop never
terminates, so no fuel bound makes `Polygon.make` return anything at
all. -/
theorem c5_counterexample :
    crossingCheck (polyLines bowtieNodes) = true ∧
    neverConstructs bowtieNodes none := by
  refine ⟨by with_unfolding_all rfl, fun fuel => ?_⟩
  apply make_none
  · decide
  · rw [show dropClosing bowtieNodes = bowtieNodes from rfl,
      show triangulationInput bowtieNodes none = bowtieNodes from rfl]
    exact (bowtie_earLoop_none fuel []).1

/-- C5 amended.  Whenever construction does return: a returned polygon
never has a crossing boundary, and the self-intersecting error is raised
only when a crossing pair of boundary segments exists.  (The converse
direction of the claim fails: see `c5_counterexample`.) -/
theorem c5_amended :
    ∀ (fuel : ℕ) (ns : List Node) (cc : Option Bool),
      (∀ p, Polygon.make fuel ns cc = some (.ok p) → crossingCheck p.lines = false) ∧
      (Polygon.make fuel ns cc ≠ some (.error .selfIntersecting) ∨
        crossingCheck (polyLines (dropClosing ns)) = true) := by
  intro fuel ns cc
  constructor
  · intro p hp
    simp only [Polygon.make] at hp
    split at hp
    · exact absurd hp (by simp)
    · split at hp
      · exact absurd hp (by simp)
      · exact absurd hp (by simp)
      · split at hp
        · exact absurd hp (by simp)
        · next hcr =>
            simp only [Option.some.injEq, Except.ok.injEq] at hp
            subst hp
            simpa using hcr
  · by_cases hE : Polygon.make fuel ns cc = some (.error .selfIntersecting)
    · refine Or.inr ?_
      simp only [Polygon.make] at hE
      split at hE
      · exact absurd hE (by simp)
      · split at hE
        · exact absurd hE (by simp)
        · next e heq =>
            have ha := earLoop_error_eq _ _ _ _ _ heq
            simp only [Option.some.injEq, Except.error.injEq] at hE
            subst ha
            exact absurd hE (by simp)
        · split at hE
          · next hcr => exact hcr
          · exact absurd hE (by simp)
    · exact Or.inl hE

/-- Witness for C5 amended: the unit square constructs successfully and
its boundary has no crossing pair. -/
theorem c5_amended_witness :
    Polygon.make 16 unit_square_nodes (some false) = some (.ok unit_square) ∧
    crossingCheck unit_square.lines = false := by
  have h : Polygon.make 16 unit_square_nodes (some false) = some (.ok unit_square) := by
    with_unfolding_all rfl
  exact ⟨h, (c5_amended 16 unit_square_nodes (some false)).1 unit_square h⟩

/-- Each iteration of the ear-clipping loop either rotates the remaining
list (length unchanged) or clips one ear (one node removed, one triangle
recorded), so a normal return from a list of at least two nodes carries
exactly `copy.length - 2` new triangles. -/
theorem earLoop_length (S : List Node) :
    ∀ (fuel : ℕ) (copy : List Node) (acc res : List Triangle),
      earLoop S fuel copy acc = some (.ok res) → 2 ≤ copy.length →
      res.length + 2 = acc.length + copy.length := by
  intro fuel
  induction fuel with
  | zero => intro copy acc res h; simp [earLoop] at h
  | succ n ih =>
    intro copy acc res h h2
    rcases copy with _ | ⟨c0, _ | ⟨c1, _ | ⟨c2, rest⟩⟩⟩
    · simp at h2
    · simp at h2
    · simp only [earLoop, Option.some.injEq, Except.ok.injEq] at h
      subst h
      simp
    · simp only [earLoop] at h
      split at h
      · exact absurd h (by simp)
      · split at h
        · have := ih _ _ _ h (by simp)
          simp only [List.length_append, List.length_cons, List.length_nil] at this ⊢
          omega
        · have := ih _ _ _ h (by simp)
          simp only [List.length_append, List.length_cons, List.length_nil] at this ⊢
          omega

/-- Inversion of a successful `Polygon.make`: the stored fields in terms
of the input. -/
theorem make_ok_elim (fuel : ℕ) (ns : List Node) (cc : Option Bool) (p : Polygon)
    (hp : Polygon.make fuel ns cc = some (.ok p)) :
    ¬ (dropClosing ns).length < 3 ∧
    earLoop (dropClosing ns) fuel (triangulationInput (dropClosing ns) cc) []
      = some (.ok p.triangles) ∧
    p.nodes = dropClosing ns ∧
    p.lines = polyLines (dropClosing ns) ∧
    p.triangle_lines = (p.triangles.flatMap Triangle.lines).filter
      (fun e => ! (polyLines (dropClosing ns)).any fun b => line_eq e b) ∧
    crossingCheck (polyLines (dropClosing ns)) = false := by
  simp only [Polygon.make] at hp
  split at hp
  · exact absurd hp (by simp)
  next h3 =>
    split at hp
    · exact absurd hp (by simp)
    · exact absurd hp (by simp)
    next tris heq =>
      split at hp
      · exact absurd hp (by simp)
      next hcr =>
        simp only [Option.some.injEq, Except.ok.injEq] at hp
        subst hp
        exact ⟨h3, heq, rfl, rfl, rfl, by simpa using hcr⟩

/-- C6.  Every successful polygon construction stores exactly `n - 2`
triangles for its `n` stored nodes, and its diagonal set is, up to the
undirected segment equality, exactly the set of triangle edges that are
not boundary edges. -/
theorem c6_triangulation_count_and_diagonals :
    ∀ (fuel : ℕ) (ns : List Node) (cc : Option Bool) (p : Polygon),
      Polygon.make fuel ns cc = some (.ok p) →
      p.triangles.length + 2 = p.nodes.length ∧
      ∀ e : Line,
        (∃ x ∈ p.triangle_lines, line_eq e x = true) ↔
        ((∃ t ∈ p.triangles, ∃ x ∈ t.lines, line_eq e x = true) ∧
         ¬ ∃ b ∈ p.lines, line_eq e b = true) := by
  intro fuel ns cc p hp
  obtain ⟨h3, heq, hnodes, hlines, htl, -⟩ := make_ok_elim fuel ns cc p hp
  constructor
  · have hl : (triangulationInput (dropClosing ns) cc).length = (dropClosing ns).length := by
      unfold triangulationInput
      split <;> simp
    have h2 : 2 ≤ (triangulationInput (dropClosing ns) cc).length := by omega
    have hlen := earLoop_length _ _ _ _ _ heq h2
    simp only [List.length_nil] at hlen
    rw [hnodes]
    omega
  · intro e
    rw [htl, hlines]
    constructor
    · rintro ⟨x, hx, hex⟩
      obtain ⟨hfl, hkeep⟩ := List.mem_filter.mp hx
      obtain ⟨t, ht, hxt⟩ := List.mem_flatMap.mp hfl
      refine ⟨⟨t, ht, x, hxt, hex⟩, ?_⟩
      rintro ⟨b, hb, heb⟩
      have hxb : line_eq x b = true := line_eq_trans (line_eq_symm hex) heb
      simp only [Bool.not_eq_true', List.any_eq_false] at hkeep
      exact absurd hxb (by simp [hkeep b hb])
    · rintro ⟨⟨t, ht, x, hxt, hex⟩, hnb⟩
      refine ⟨x, List.mem_filter.mpr ⟨List.mem_flatMap.mpr ⟨t, ht, hxt⟩, ?_⟩, hex⟩
      simp only [Bool.not_eq_true', List.any_eq_false]
      intro b hb
      cases hxb : line_eq x b
      · simp
      · exact absurd ⟨b, hb, line_eq_trans hex hxb⟩ hnb

/-- Witness for C6: the unit square stores `4 - 2 = 2` triangles. -/
theorem c6_witness :
    unit_square.triangles.length + 2 = unit_square.nodes.length :=
  (c6_triangulation_count_and_diagonals 16 unit_square_nodes (some false) unit_square
    (by with_unfolding_all rfl)).1

/-- C7.  `precalculate_visibility` returns false exactly when the cache is
already valid and leaves the board valid; `add` and (successful) `remove`
clear the validity flag, so the next `precalculate_visibility` returns
true. -/
theorem c7_cache_invalidation :
    ∀ (b : Board) (p : Polygon),
      b.precalculate_visibility.fst = ! b.precalculated ∧
      b.precalculate_visibility.snd.precalculated = true ∧
      (b.add p).precalculated = false ∧
      (b.add p).precalculate_visibility.fst = true ∧
      ∀ b', b.remove p = some b' →
        b'.precalculated = false ∧ b'.precalculate_visibility.fst = true := by
  intro b p
  refine ⟨?_, ?_, rfl, ?_, ?_⟩
  · cases hb : b.precalculated <;> simp [Board.precalculate_visibility, hb]
  · cases hb : b.precalculated <;> simp [Board.precalculate_visibility, hb]
  · simp [Board.precalculate_visibility, Board.add]
  · intro b' hb'
    unfold Board.remove at hb'
    split at hb'
    · simp only [Option.some.injEq] at hb'
      subst hb'
      exact ⟨rfl, by simp [Board.precalculate_visibility]⟩
    · exact absurd hb' (by simp)

/-- Witness for C7: removing the unit square from the one-polygon board
succeeds, leaves the cache invalid, and the next `precalculate_visibility`
returns true. -/
theorem c7_witness :
    square_board.remove unit_square = some board_after_remove ∧
    board_after_remove.precalculated = false ∧
    board_after_remove.precalculate_visibility.fst = true := by
  have h : square_board.remove unit_square = some board_after_remove := by
    with_unfolding_all rfl
  exact ⟨h, (c7_cache_invalidation square_board unit_square).2.2.2.2 board_after_remove h⟩

/-- C9.  `get_visible_set` and `get_visible_set_for` never contain the
query point itself, whatever the board, the query point and the extra
points. -/
theorem c9_visible_set_excludes_pov :
    ∀ (b : Board) (pov : Node) (args : List Node),
      pov ∉ b.get_visible_set pov args ∧ pov ∉ b.get_visible_set_for pov args := by
  intro b pov args
  have key : ∀ L : List Node,
      pov ∉ L.filter fun i => b.is_visible pov i && decide (pov ≠ i) := by
    intro L h
    have h2 := (List.mem_filter.mp h).2
    simp only [Bool.and_eq_true, decide_eq_true_eq] at h2
    exact h2.2 rfl
  refine ⟨fun h => ?_, key args⟩
  rcases List.mem_append.mp h with h' | h'
  · exact key args h'
  · exact key b.nodes h'

/-- C10.  `get_expanded` leaves the receiver board untouched — polygon
set, cache flag and cache all exactly as before — and any board it
returns is freshly built (its cache flag is still clear), for every
polygon-expansion function. -/
theorem c10_get_expanded_frame :
    ∀ (expandPoly : Polygon → ℚ → Except PolyErr Polygon) (b : Board) (outset : ℚ),
      (Board.get_expanded expandPoly b outset).snd = b ∧
      ∀ nb, (Board.get_expanded expandPoly b outset).fst = .ok nb →
        nb.precalculated = false := by
  intro f b outset
  refine ⟨rfl, ?_⟩
  have h : ∀ (ps : List Polygon) (acc : Except PolyErr Board),
      (∀ x, acc = .ok x → x.precalculated = false) →
      ∀ nb, ps.foldl (expandFold f outset) acc = .ok nb → nb.precalculated = false := by
    intro ps
    induction ps with
    | nil => intro acc hacc nb hnb; exact hacc nb hnb
    | cons p ps ih =>
      intro acc hacc nb hnb
      refine ih (expandFold f outset acc p) ?_ nb hnb
      intro x hx
      cases acc with
      | error e => exact absurd hx (by simp [expandFold])
      | ok nb0 =>
        simp only [expandFold] at hx
        split at hx
        · exact absurd hx (by simp)
        · simp only [Except.ok.injEq] at hx
          subst hx
          rfl
  intro nb hnb
  refine h b.polygons (.ok Board.new) ?_ nb hnb
  intro x hx
  simp only [Except.ok.injEq] at hx
  subst hx
  rfl

/-- Witness for C10 with the identity expansion on the one-polygon
board. -/
theorem c10_witness :
    (Board.get_expanded (fun p _ => .ok p) square_board 1).snd = square_board ∧
    square_board.precalculated = false := by
  refine ⟨(c10_get_expanded_frame (fun p _ => .ok p) square_board 1).1, ?_⟩
  exact (c10_get_expanded_frame (fun p _ => .ok p) square_board 1).2 square_board
    (by with_unfolding_all rfl)

/-- Supporting facts for the S-curve shortest-path scenario (spec §8): the
line-of-sight assertions of the test suite hold, and from the start point
`(1.5, 3)` the two visible board nodes `(1,3)` and `(2,3)` lie at exactly
the same squared distance `1/4`, so the first minimum-cost selection of
`get_shortest_path` is a genuine tie between them — resolved only by
Python's set iteration order, not by the geometry. -/
theorem sCurve_visibility_and_tie :
    s_board.is_visible s_start s_end = false ∧
    s_board.is_visible ⟨3/2, 2⟩ ⟨3/2, 5/2⟩ = true ∧
    s_board.is_visible ⟨3, 0⟩ ⟨3, 1⟩ = true ∧
    s_board.is_visible s_start ⟨1, 3⟩ = true ∧
    s_board.is_visible s_start ⟨2, 3⟩ = true ∧
    Node.dist2 s_start ⟨1, 3⟩ = Node.dist2 s_start ⟨2, 3⟩ := by
  refine ⟨?_, ?_, ?_, ?_, ?_, ?_⟩ <;> with_unfolding_all rfl

/-- The direct visibility test is not symmetric in its argument order
when the sight line passes exactly through a polygon vertex: the ray from
`(2,3)` to `(0,3)` along the top wall, which grazes the vertex `(1,3)`, is
judged blocked in one direction and clear in the other.  Because
`precalculate_visibility` tests each unordered node pair once, in Python
set iteration order, and records the single answer symmetrically, the
content of the visibility cache — and with it the result of
`get_shortest_path` — depends on that iteration order (the repository's
own test for `get_visible_set(Node(2,3))` accepts two answers for this
reason). -/
theorem sCurve_visibility_test_asymmetric :
    s_board.visibility_test ⟨2, 3⟩ ⟨0, 3⟩ = false ∧
    s_board.visibility_test ⟨0, 3⟩ ⟨2, 3⟩ = true := by
  exact ⟨by with_unfolding_all rfl, by with_unfolding_all rfl⟩

end PF
